import Mathlib

/-!
Verification of the completion popup controller (src/src/popup.ts) of
obsidian-completr. The TypeScript class `SuggestionPopup` is shallowly
embedded: each method becomes a pure Lean function over an explicit state,
host-editor effects (range replacement, cursor moves, snippet hand-off,
notices) are recorded in result records, and machine-level collaborators
(the key-binding scope, the external word matcher) are modelled from their
interface contracts.
-/

/-- Buffer position, mirroring Obsidian's `EditorPosition` (`line`, `ch`).
`ch` is a natural number; the TS subtraction `cursor.ch - query.length`
is modelled with truncated `Nat` subtraction. -/
structure EditorPosition where
  line : Nat
  ch : Nat
deriving DecidableEq, Repr

/-- A completion candidate. Modelled from the spec: the `Suggestion` type of
provider/provider.ts is not under src/; spec section 9 describes it as a tagged
variant with two cases, `Plain(text)` and
`Rich(displayName, replacement, overrideStart?)`. -/
inductive Suggestion where
  | plain (text : String)
  | rich (displayName : String) (replacement : String)
      (overrideStart : Option EditorPosition)
deriving DecidableEq, Repr

/-- Modelled from the spec: accessor `getSuggestionReplacement` of
provider/provider.ts (not under src/); spec section 9 says accessors
pattern-match the tag, so a plain candidate's replacement is its text
and a rich candidate's replacement is its `replacement` field. -/
def getSuggestionReplacement : Suggestion → String
  | .plain t => t
  | .rich _ r _ => r

/-- The `overrideStart` carried by a candidate: a plain (string) candidate has
none; a rich candidate carries its optional `overrideStart` field. This is the
truthiness test `typeof suggestion === "string" || !suggestion.overrideStart`
from popup.ts lines 64 and 106. -/
def overrideStartOf : Suggestion → Option EditorPosition
  | .plain _ => none
  | .rich _ _ o => o

/-- The suggestion context handed to providers: Obsidian's
`EditorSuggestContext` fields used by popup.ts (`start`, `end`, `query`)
plus the `separatorChar` the popup spreads in at line 57-60. `end` is a Lean
keyword, hence `endPos`. -/
structure TriggerContext where
  start : EditorPosition
  endPos : EditorPosition
  query : String
  separatorChar : String
deriving DecidableEq, Repr

/- ------------------------------------------------------------------ -/
/- Character-class cache: popup.ts lines 146-151 (`getCharacterRegex`). -/

/-- A compiled JavaScript `RegExp` value, identified by its source and flags
(the only data `new RegExp("[" + pattern + "]", "u")` depends on). -/
structure RegExpObj where
  source : String
  flags : String
deriving DecidableEq, Repr

/-- The two cache fields of the `SuggestionPopup` class:
`characterRegex` (the pattern string the comparison reads) and
`compiledCharacterRegex`. Both are uninitialised (`undefined`) when the
object is constructed, hence `Option` with `none` as `undefined`. -/
structure RegexCache where
  characterRegex : Option String
  compiledCharacterRegex : Option RegExpObj
deriving DecidableEq, Repr

/-- Field state right after construction: both fields `undefined`. -/
def initialRegexCache : RegexCache := ⟨none, none⟩

/-- Result of one `getCharacterRegex` call: the updated fields, the returned
regex, and an instrumentation bit recording whether `new RegExp(...)` ran. -/
structure RegexCallResult where
  cache : RegexCache
  result : Option RegExpObj
  recompiled : Bool
deriving DecidableEq, Repr

/-- popup.ts lines 146-151:
`if (this.characterRegex !== this.settings.characterRegex)
   this.compiledCharacterRegex = new RegExp("[" + ... + "]", "u");
 return this.compiledCharacterRegex;`
Note the source assigns only `compiledCharacterRegex`; the comparison field
`characterRegex` is never written, and the embedding preserves that. -/
def getCharacterRegex (cache : RegexCache) (settingsCharacterRegex : String) :
    RegexCallResult :=
  if cache.characterRegex ≠ some settingsCharacterRegex then
    let compiled : RegExpObj :=
      ⟨"[" ++ settingsCharacterRegex ++ "]", "u"⟩
    ⟨{ cache with compiledCharacterRegex := some compiled }, some compiled, true⟩
  else
    ⟨cache, cache.compiledCharacterRegex, false⟩

/-- C1: the claim says recompilation occurs iff the requested pattern differs
from the pattern cached by the previous compilation. On the code this fails:
because `this.characterRegex` is never assigned, a second call with the very
same pattern string recompiles again (the cached pattern field is still
`undefined` after the first compilation). This theorem evaluates the embedded
code at the failing input: two successive calls with the unchanged pattern
"a-zA-Z" both recompile. -/
theorem getCharacterRegex_recompiles_despite_equal_pattern :
    (getCharacterRegex initialRegexCache "a-zA-Z").recompiled = true ∧
    (getCharacterRegex (getCharacterRegex initialRegexCache "a-zA-Z").cache
        "a-zA-Z").recompiled = true ∧
    (getCharacterRegex initialRegexCache "a-zA-Z").cache.characterRegex
      = none := by
  decide

/- ------------------------------------------------------------------ -/
/- Suggestion aggregation: popup.ts lines 51-75 (`getSuggestions`).     -/

/-- A suggestion source as consumed by the popup (provider contract of
spec section 6): a synchronous candidate function plus the static
`blocksAllOtherProviders` flag. -/
structure Provider where
  getSuggestions : TriggerContext → List Suggestion
  blocksAllOtherProviders : Bool

/-- Result of one collection run: the accumulated `suggestions` array, the
final `this.context.start` (written at popup.ts line 68), plus two
instrumentation fields: `invoked` counts how many providers of the list were
called (always a prefix of the list, in order), `fired` records whether the
blocking `break` at line 70 executed. -/
structure CollectResult where
  suggestions : List Suggestion
  ctxStart : EditorPosition
  invoked : Nat
  fired : Bool
deriving DecidableEq, Repr

/-- popup.ts lines 63-69: `suggestions.forEach(...)` — each structured
candidate carrying an `overrideStart` assigns it to `this.context.start`
(string candidates and candidates without an override are skipped). -/
def applyOverrides (ss : List Suggestion) (st : EditorPosition) :
    EditorPosition :=
  ss.foldl
    (fun cur s =>
      match overrideStartOf s with
      | some o => o
      | none => cur)
    st

/-- The provider loop of popup.ts lines 56-72: spread-append each provider's
candidates onto the accumulator; if the provider blocks and the accumulated
array is non-empty, run the override `forEach` and `break`. `acc` is the
`suggestions` array so far, `st` the current `this.context.start`, `n` the
number of providers already called. -/
def getSuggestionsGo (ctx : TriggerContext) :
    List Provider → List Suggestion → EditorPosition → Nat → CollectResult
  | [], acc, st, n => ⟨acc, st, n, false⟩
  | p :: rest, acc, st, n =>
    let acc2 := acc ++ p.getSuggestions ctx
    if p.blocksAllOtherProviders = true ∧ 0 < acc2.length then
      ⟨acc2, applyOverrides acc2 st, n + 1, true⟩
    else
      getSuggestionsGo ctx rest acc2 st (n + 1)

/-- popup.ts `getSuggestions(context)`: run the loop over the provider list
(`PROVIDERS` in the source; kept as a parameter so the fixed list is one
instance) starting from an empty array and the context's start. The context
already carries the spread-in `separatorChar`. -/
def getSuggestions (providers : List Provider) (ctx : TriggerContext) :
    CollectResult :=
  getSuggestionsGo ctx providers [] ctx.start 0

/-- The last `overrideStart` occurring among a list of candidates, if any:
the value the `forEach` of popup.ts lines 63-69 leaves in
`this.context.start` when it runs. -/
def lastOverride : List Suggestion → Option EditorPosition
  | [] => none
  | s :: t =>
    match lastOverride t with
    | some o => some o
    | none => overrideStartOf s

/-- A fallible suggestion source: its candidate function may throw
(JavaScript exception, modelled as `Except.error ()`). -/
structure ProviderE where
  getSuggestions : TriggerContext → Except Unit (List Suggestion)
  blocksAllOtherProviders : Bool

/-- The provider loop of popup.ts lines 56-72 with fallible providers. The
loop body contains no try/catch, so an exception thrown by
`provider.getSuggestions` propagates out of the whole loop: embedded as
`Except.error` short-circuiting. -/
def getSuggestionsGoE (ctx : TriggerContext) :
    List ProviderE → List Suggestion → EditorPosition → Nat →
      Except Unit CollectResult
  | [], acc, st, n => .ok ⟨acc, st, n, false⟩
  | p :: rest, acc, st, n =>
    match p.getSuggestions ctx with
    | .error e => .error e
    | .ok out =>
      let acc2 := acc ++ out
      if p.blocksAllOtherProviders = true ∧ 0 < acc2.length then
        .ok ⟨acc2, applyOverrides acc2 st, n + 1, true⟩
      else
        getSuggestionsGoE ctx rest acc2 st (n + 1)

/-- popup.ts `getSuggestions` over fallible providers. -/
def getSuggestionsE (providers : List ProviderE) (ctx : TriggerContext) :
    Except Unit CollectResult :=
  getSuggestionsGoE ctx providers [] ctx.start 0

/- Helper lemmas about the collection loop. -/

lemma getSuggestionsGo_invoked_le (ctx : TriggerContext) :
    ∀ (ps : List Provider) (acc : List Suggestion) (st : EditorPosition)
      (n : Nat) (i : Fin ps.length),
      (ps.get i).blocksAllOtherProviders = true →
      (ps.get i).getSuggestions ctx ≠ [] →
      (getSuggestionsGo ctx ps acc st n).invoked ≤ n + i.val + 1 := by
  intro ps
  induction ps with
  | nil => intro _ _ _ i; exact absurd i.isLt (by simp)
  | cons p rest ih =>
    intro acc st n i hb hne
    by_cases hc : p.blocksAllOtherProviders = true ∧
        0 < (acc ++ p.getSuggestions ctx).length
    · simp only [getSuggestionsGo, if_pos hc]
      omega
    · simp only [getSuggestionsGo, if_neg hc]
      cases i using Fin.cases with
      | zero =>
        exfalso
        apply hc
        refine ⟨hb, ?_⟩
        have hlen : 0 < (p.getSuggestions ctx).length :=
          List.length_pos.mpr hne
        simp [List.length_append]
        omega
      | succ j =>
        have h := ih (acc ++ p.getSuggestions ctx) st (n + 1) j hb hne
        have hj : (j.succ : Fin (p :: rest).length).val = j.val + 1 := rfl
        omega

lemma getSuggestionsGo_no_block (ctx : TriggerContext) :
    ∀ (ps : List Provider) (acc : List Suggestion) (st : EditorPosition)
      (n : Nat),
      (∀ p ∈ ps, p.blocksAllOtherProviders = false) →
      (getSuggestionsGo ctx ps acc st n).suggestions =
        acc ++ (ps.map (fun p => p.getSuggestions ctx)).flatten := by
  intro ps
  induction ps with
  | nil => intro acc st n _; simp [getSuggestionsGo]
  | cons p rest ih =>
    intro acc st n hall
    have hp : p.blocksAllOtherProviders = false := hall p (by simp)
    have hc : ¬ (p.blocksAllOtherProviders = true ∧
        0 < (acc ++ p.getSuggestions ctx).length) := by
      simp [hp]
    simp only [getSuggestionsGo, if_neg hc]
    rw [ih (acc ++ p.getSuggestions ctx) st (n + 1)
      (fun q hq => hall q (by simp [hq]))]
    simp [List.append_assoc]

lemma getSuggestionsGo_ctxStart (ctx : TriggerContext) :
    ∀ (ps : List Provider) (acc : List Suggestion) (st : EditorPosition)
      (n : Nat),
      ((getSuggestionsGo ctx ps acc st n).fired = true →
        (getSuggestionsGo ctx ps acc st n).ctxStart =
          applyOverrides (getSuggestionsGo ctx ps acc st n).suggestions st) ∧
      ((getSuggestionsGo ctx ps acc st n).fired = false →
        (getSuggestionsGo ctx ps acc st n).ctxStart = st) := by
  intro ps
  induction ps with
  | nil =>
    intro acc st n
    constructor
    · intro h; simp [getSuggestionsGo] at h
    · intro _; rfl
  | cons p rest ih =>
    intro acc st n
    by_cases hc : p.blocksAllOtherProviders = true ∧
        0 < (acc ++ p.getSuggestions ctx).length
    · constructor
      · intro _
        simp only [getSuggestionsGo]
        rw [if_pos hc]
      · intro h
        simp only [getSuggestionsGo] at h
        rw [if_pos hc] at h
        simp at h
    · simp only [getSuggestionsGo, if_neg hc]
      exact ih (acc ++ p.getSuggestions ctx) st (n + 1)

lemma applyOverrides_eq_lastOverride (ss : List Suggestion)
    (st : EditorPosition) :
    applyOverrides ss st = (lastOverride ss).getD st := by
  induction ss generalizing st with
  | nil => rfl
  | cons s t ih =>
    have hstep : applyOverrides (s :: t) st =
        applyOverrides t
          (match overrideStartOf s with
           | some o => o
           | none => st) := rfl
    rw [hstep, ih]
    cases h : lastOverride t with
    | some o => simp [lastOverride, h]
    | none =>
      cases ho : overrideStartOf s with
      | some o => simp [lastOverride, h, ho]
      | none => simp [lastOverride, h, ho]

/-- C3: if the provider at position `i` of the priority list is flagged
`blocksAllOtherProviders` and returns at least one candidate for the trigger
context (so the accumulated array is non-empty after it contributes), the
loop breaks at it: at most the first `i + 1` providers are ever invoked, so
no provider later in the priority order runs for that trigger. -/
theorem getSuggestions_blocking_stops (providers : List Provider)
    (ctx : TriggerContext) (i : Fin providers.length)
    (hb : (providers.get i).blocksAllOtherProviders = true)
    (hne : (providers.get i).getSuggestions ctx ≠ []) :
    (getSuggestions providers ctx).invoked ≤ i.val + 1 := by
  have h := getSuggestionsGo_invoked_le ctx providers [] ctx.start 0 i hb hne
  simpa [getSuggestions] using h

/-- C4: when no provider in the list blocks, the collected result is exactly
the concatenation of each provider's candidate list in priority order:
earlier providers' candidates precede later ones', and each provider's own
return order is preserved. -/
theorem getSuggestions_no_block_concat (providers : List Provider)
    (ctx : TriggerContext)
    (h : ∀ p ∈ providers, p.blocksAllOtherProviders = false) :
    (getSuggestions providers ctx).suggestions =
      (providers.map (fun p => p.getSuggestions ctx)).flatten := by
  have hh := getSuggestionsGo_no_block ctx providers [] ctx.start 0 h
  simpa [getSuggestions] using hh

/-- C6: override-start policy of the collection loop. When the blocking
short-circuit fires, the trigger context's effective start becomes the last
`overrideStart` found among the accumulated structured candidates (plain
candidates and candidates without an override are skipped), or stays at the
original start when none carries one. When the short-circuit never fires,
the start is not adjusted at all. -/
theorem getSuggestions_overrideStart_policy (providers : List Provider)
    (ctx : TriggerContext) :
    ((getSuggestions providers ctx).fired = true →
      (getSuggestions providers ctx).ctxStart =
        (lastOverride (getSuggestions providers ctx).suggestions).getD
          ctx.start) ∧
    ((getSuggestions providers ctx).fired = false →
      (getSuggestions providers ctx).ctxStart = ctx.start) := by
  have h := getSuggestionsGo_ctxStart ctx providers [] ctx.start 0
  constructor
  · intro hf
    have := h.1 hf
    rw [applyOverrides_eq_lastOverride] at this
    exact this
  · exact h.2

lemma getSuggestionsGoE_error (ctx : TriggerContext) (p : ProviderE)
    (post : List ProviderE) :
    ∀ (pre : List ProviderE) (acc : List Suggestion) (st : EditorPosition)
      (n : Nat),
      (∀ q ∈ pre, q.blocksAllOtherProviders = false) →
      (∀ q ∈ pre, ∃ out, q.getSuggestions ctx = Except.ok out) →
      p.getSuggestions ctx = Except.error () →
      getSuggestionsGoE ctx (pre ++ p :: post) acc st n = Except.error () := by
  intro pre
  induction pre with
  | nil =>
    intro acc st n _ _ hp
    simp [getSuggestionsGoE, hp]
  | cons q rest ih =>
    intro acc st n hbl hok hp
    obtain ⟨out, hq⟩ := hok q (by simp)
    have hqb : q.blocksAllOtherProviders = false := hbl q (by simp)
    simp only [List.cons_append, getSuggestionsGoE, hq]
    rw [if_neg (by simp [hqb])]
    exact ih (acc ++ out) st (n + 1)
      (fun r hr => hbl r (by simp [hr]))
      (fun r hr => hok r (by simp [hr])) hp

/-- A provider whose `getSuggestions` throws (concrete failing source). -/
def provThrow : ProviderE :=
  ⟨fun _ => Except.error (), false⟩

/-- A well-behaved provider returning one word candidate. -/
def provOkWord : ProviderE :=
  ⟨fun _ => Except.ok [Suggestion.plain "word"], false⟩

/-- A concrete trigger context used by the evaluation theorems. -/
def ctxSample : TriggerContext :=
  ⟨⟨0, 4⟩, ⟨0, 6⟩, "qu", " "⟩

/-- C2 counterexample: with the throwing source first and a healthy source
after it, the claim predicts that collection proceeds and returns the healthy
source's candidates (result `ok` with `[plain "word"]`, both providers
consulted). The code has no try/catch in the provider loop, so the exception
propagates: the run aborts with the error and no candidate list is returned. -/
theorem getSuggestionsE_throwing_source_aborts :
    getSuggestionsE [provThrow, provOkWord] ctxSample = Except.error () ∧
    getSuggestionsE [provThrow, provOkWord] ctxSample ≠
      Except.ok ⟨[Suggestion.plain "word"], ctxSample.start, 2, false⟩ := by
  constructor
  · rfl
  · intro h
    rw [show getSuggestionsE [provThrow, provOkWord] ctxSample =
        Except.error () from rfl] at h
    exact Except.noConfusion h

/-- C2 amended: if a provider throws during collection and no earlier provider
has already short-circuited the loop (earlier providers all return normally
and none blocks), the exception propagates out of `getSuggestions`: collection
aborts with the error and no candidate list — not even the candidates of the
non-failing providers — is returned. -/
theorem getSuggestionsE_error_propagates (pre : List ProviderE)
    (p : ProviderE) (post : List ProviderE) (ctx : TriggerContext)
    (hbl : ∀ q ∈ pre, q.blocksAllOtherProviders = false)
    (hok : ∀ q ∈ pre, ∃ out, q.getSuggestions ctx = Except.ok out)
    (hp : p.getSuggestions ctx = Except.error ()) :
    getSuggestionsE (pre ++ p :: post) ctx = Except.error () := by
  exact getSuggestionsGoE_error ctx p post pre [] ctx.start 0 hbl hok hp

/-- Witness for the amended C2 theorem at a concrete input: a healthy
provider followed by a throwing one still makes the whole collection abort. -/
theorem getSuggestionsE_error_propagates_witness :
    getSuggestionsE ([provOkWord] ++ provThrow :: []) ctxSample =
      Except.error () := by
  exact getSuggestionsE_error_propagates [provOkWord] provThrow [] ctxSample
    (by intro q hq; fin_cases hq; rfl)
    (by intro q hq; fin_cases hq; exact ⟨[Suggestion.plain "word"], rfl⟩)
    rfl

/- ------------------------------------------------------------------ -/
/- Acceptance: popup.ts lines 104-122 (`selectSuggestion`).             -/

/-- popup.ts line 106: the actual replacement-span start — the candidate's
`overrideStart` when it is a structured candidate carrying one, else the
trigger context's `start`. -/
def selectionStart (value : Suggestion) (ctx : TriggerContext) :
    EditorPosition :=
  match overrideStartOf value with
  | some o => o
  | none => ctx.start

/-- The host editor's `replaceRange` on the context's line, modelled as a
single line of characters indexed by `ch` (trigger spans computed by
`onTrigger` lie within one line): splice `repl` over `[start.ch, stop.ch)`. -/
def replaceRange (line : List Char) (repl : String)
    (start stop : EditorPosition) : List Char :=
  line.take start.ch ++ repl.data ++ line.drop stop.ch

/-- `replacement.contains("#")` / `replacement.contains("~")` of popup.ts
line 110 with its single-character needle: membership of the character in the
text (substring containment and character membership coincide for
one-character needles). -/
def containsChar (s : String) (c : Char) : Bool :=
  s.data.contains c

/-- Everything one `selectSuggestion` call does, as observable effects:
the mutated line, the snippet hand-off (`snippetManager.handleSnippet`
arguments) if any, whether the diagnostic `console.log` notice ran, the
`setCursor` call if any, and the popup state (`close()` + `justClosed`). -/
structure SelectResult where
  line : List Char
  snippetCall : Option (String × EditorPosition)
  noticeShown : Bool
  cursorSet : Option EditorPosition
  closed : Bool
  justClosed : Bool
deriving DecidableEq, Repr

/-- popup.ts lines 104-122: compute the replacement and the span start,
`replaceRange` over `[start, context.end)`, then — if the replacement contains
a "#" or "~" snippet marker — hand off to the snippet manager unless snippets
are disabled by the host editing mode (then only log a notice); otherwise set
the cursor right after the inserted text (`{...start, ch: start.ch + length}`).
Finally close the popup and set `justClosed`. -/
def selectSuggestion (value : Suggestion) (ctx : TriggerContext)
    (disableSnippets : Bool) (line : List Char) : SelectResult :=
  let replacement := getSuggestionReplacement value
  let start := selectionStart value ctx
  let line2 := replaceRange line replacement start ctx.endPos
  if containsChar replacement '#' || containsChar replacement '~' then
    if !disableSnippets then
      ⟨line2, some (replacement, start), false, none, true, true⟩
    else
      ⟨line2, none, true, none, true, true⟩
  else
    ⟨line2, none, false,
      some ⟨start.line, start.ch + replacement.length⟩, true, true⟩

/- ------------------------------------------------------------------ -/
/- Trigger detection: popup.ts lines 77-97 (`onTrigger`).               -/

/-- Result of the external `matchWordBackwards` call (editor_helpers.ts, an
external collaborator): the detected partial word and the separator character
before it. Passed to `onTrigger` as an input. -/
structure MatchResult where
  query : String
  separatorChar : String
deriving DecidableEq, Repr

/-- The popup state `onTrigger` reads and writes: the anti-reopen latch
`justClosed` and the stored `separatorChar`. -/
structure TriggerState where
  justClosed : Bool
  separatorChar : String
deriving DecidableEq, Repr

/-- Obsidian's `EditorSuggestTriggerInfo`: the value `onTrigger` returns when
a trigger fires (`null` modelled as `none` at the call site). -/
structure TriggerInfo where
  start : EditorPosition
  endPos : EditorPosition
  query : String
deriving DecidableEq, Repr

/-- popup.ts lines 77-97: if `justClosed` is set, clear it and yield no
trigger; otherwise store the matcher's `separatorChar` and yield the trigger
info spanning from `cursor.ch - query.length` to the cursor. -/
def onTrigger (st : TriggerState) (cursor : EditorPosition)
    (m : MatchResult) : TriggerState × Option TriggerInfo :=
  if st.justClosed then
    ({ st with justClosed := false }, none)
  else
    ({ st with separatorChar := m.separatorChar },
      some ⟨⟨cursor.line, cursor.ch - m.query.length⟩, cursor, m.query⟩)

/- ------------------------------------------------------------------ -/
/- Accept-key binder: popup.ts lines 128-144.                           -/

/-- Model of the host's key-binding scope (external interface, spec section
6: registration/unregistration keyed by identity). Each registration is an
opaque handle paired with its key; `nextHandle` supplies fresh handles. -/
structure Scope where
  regs : List (Nat × String)
  nextHandle : Nat
deriving DecidableEq, Repr

/-- `scope.register(..., key, ...)`: adds a binding for `key` and returns its
fresh handle. -/
def Scope.register (sc : Scope) (key : String) : Scope × Nat :=
  ({ regs := sc.regs ++ [(sc.nextHandle, key)], nextHandle := sc.nextHandle + 1 },
    sc.nextHandle)

/-- `scope.unregister(handle)`: removes the binding with that handle. -/
def Scope.unregister (sc : Scope) (h : Nat) : Scope :=
  { sc with regs := sc.regs.filter (fun p => p.1 ≠ h) }

/-- popup.ts lines 139-144 `disableInsertionKey`: unregister the stored
registration only when one is present (the truthiness guard
`if (this.insertionKeybindRegistration)`). -/
def disableInsertionKey (sc : Scope) (reg : Option Nat) : Scope :=
  match reg with
  | some h => sc.unregister h
  | none => sc

/-- popup.ts lines 128-137 `setInsertionKey`: first disable any active custom
registration, then register the new key and store its handle. -/
def setInsertionKey (sc : Scope) (reg : Option Nat) (key : String) :
    Scope × Option Nat :=
  let sc1 := disableInsertionKey sc reg
  let r := sc1.register key
  (r.1, some r.2)

/- Helper lemmas for the acceptance theorems. -/

lemma take_len_append {α : Type} (l1 l2 : List α) :
    (l1 ++ l2).take l1.length = l1 := by
  induction l1 with
  | nil => simp
  | cons a t ih => simp [ih]

lemma drop_len_append {α : Type} (l1 l2 : List α) :
    (l1 ++ l2).drop l1.length = l2 := by
  induction l1 with
  | nil => simp
  | cons a t ih => simp [ih]

lemma take_append_of_len {α : Type} (l1 l2 : List α) (n : Nat)
    (h : l1.length = n) : (l1 ++ l2).take n = l1 := by
  subst h
  exact take_len_append l1 l2

lemma drop_append_of_len {α : Type} (l1 l2 : List α) (n : Nat)
    (h : l1.length = n) : (l1 ++ l2).drop n = l2 := by
  subst h
  exact drop_len_append l1 l2

lemma selectSuggestion_line (value : Suggestion) (ctx : TriggerContext)
    (disableSnippets : Bool) (line : List Char) :
    (selectSuggestion value ctx disableSnippets line).line =
      replaceRange line (getSuggestionReplacement value)
        (selectionStart value ctx) ctx.endPos := by
  simp only [selectSuggestion]
  split
  · split
    · rfl
    · rfl
  · rfl

lemma selectSuggestion_justClosed (value : Suggestion) (ctx : TriggerContext)
    (disableSnippets : Bool) (line : List Char) :
    (selectSuggestion value ctx disableSnippets line).justClosed = true := by
  simp only [selectSuggestion]
  split
  · split
    · rfl
    · rfl
  · rfl

/-- C5: acceptance replaces exactly the span from the candidate's
`overrideStart` (when present; else the trigger context's `start`) through the
context's `end`: the text before the span start is unchanged, the span now
holds exactly the replacement text, and the text from the old span end onward
is unchanged (shifted to sit right after the replacement) — no other span of
the line is mutated. -/
theorem selectSuggestion_replaces_exact_span (value : Suggestion)
    (ctx : TriggerContext) (disableSnippets : Bool) (line : List Char)
    (h1 : (selectionStart value ctx).ch ≤ ctx.endPos.ch)
    (h2 : ctx.endPos.ch ≤ line.length) :
    (selectSuggestion value ctx disableSnippets line).line.take
        (selectionStart value ctx).ch =
      line.take (selectionStart value ctx).ch ∧
    ((selectSuggestion value ctx disableSnippets line).line.drop
          (selectionStart value ctx).ch).take
        (getSuggestionReplacement value).data.length =
      (getSuggestionReplacement value).data ∧
    (selectSuggestion value ctx disableSnippets line).line.drop
        ((selectionStart value ctx).ch +
          (getSuggestionReplacement value).data.length) =
      line.drop ctx.endPos.ch := by
  rw [selectSuggestion_line]
  unfold replaceRange
  have hs : (line.take (selectionStart value ctx).ch).length =
      (selectionStart value ctx).ch := by
    rw [List.length_take]
    exact Nat.min_eq_left (le_trans h1 h2)
  refine ⟨?_, ?_, ?_⟩
  · rw [List.append_assoc]
    exact take_append_of_len _ _ _ hs
  · rw [List.append_assoc,
      drop_append_of_len (line.take (selectionStart value ctx).ch) _ _ hs]
    exact take_len_append _ _
  · have hlen2 : ((line.take (selectionStart value ctx).ch) ++
        (getSuggestionReplacement value).data).length =
        (selectionStart value ctx).ch +
          (getSuggestionReplacement value).data.length := by
      rw [List.length_append, hs]
    exact drop_append_of_len _ _ _ hlen2

/-- Concrete candidate for the acceptance witnesses: rich, no override. -/
def valueW : Suggestion := Suggestion.rich "query" "query" none

/-- Concrete line `"The qu"` for the acceptance witnesses. -/
def lineW : List Char := "The qu".data

/-- Witness for C5 at the spec's own scenario: line `"The qu"`, trigger span
`[4, 6)`, accepting `"query"`. -/
theorem selectSuggestion_replaces_exact_span_witness :
    (selectSuggestion valueW ctxSample false lineW).line.take
        (selectionStart valueW ctxSample).ch =
      lineW.take (selectionStart valueW ctxSample).ch ∧
    ((selectSuggestion valueW ctxSample false lineW).line.drop
          (selectionStart valueW ctxSample).ch).take
        (getSuggestionReplacement valueW).data.length =
      (getSuggestionReplacement valueW).data ∧
    (selectSuggestion valueW ctxSample false lineW).line.drop
        ((selectionStart valueW ctxSample).ch +
          (getSuggestionReplacement valueW).data.length) =
      lineW.drop ctxSample.endPos.ch :=
  selectSuggestion_replaces_exact_span valueW ctxSample false lineW
    (by decide) (by decide)

/-- C7: accepting a candidate whose replacement contains a snippet marker
while snippets are disabled by the host editing mode only logs the diagnostic
notice — no snippet hand-off happens — and the plain-text replacement of the
span has already been applied to the line, so the inserted content is kept. -/
theorem selectSuggestion_snippet_disabled_notice (value : Suggestion)
    (ctx : TriggerContext) (line : List Char)
    (hmark : (containsChar (getSuggestionReplacement value) '#' ||
        containsChar (getSuggestionReplacement value) '~') = true) :
    (selectSuggestion value ctx true line).noticeShown = true ∧
    (selectSuggestion value ctx true line).snippetCall = none ∧
    (selectSuggestion value ctx true line).line =
      replaceRange line (getSuggestionReplacement value)
        (selectionStart value ctx) ctx.endPos := by
  simp [selectSuggestion, hmark]

/-- Witness for C7: accepting `"a#b"` with snippets disabled. -/
theorem selectSuggestion_snippet_disabled_notice_witness :
    (selectSuggestion (Suggestion.plain "a#b") ctxSample true lineW).noticeShown
        = true ∧
    (selectSuggestion (Suggestion.plain "a#b") ctxSample true lineW).snippetCall
        = none ∧
    (selectSuggestion (Suggestion.plain "a#b") ctxSample true lineW).line =
      replaceRange lineW (getSuggestionReplacement (Suggestion.plain "a#b"))
        (selectionStart (Suggestion.plain "a#b") ctxSample) ctxSample.endPos :=
  selectSuggestion_snippet_disabled_notice (Suggestion.plain "a#b") ctxSample
    lineW (by decide)

/-- C10: the snippet path is taken iff the replacement text contains a
"#" or a "~" character. On the snippet path with snippets enabled the
replacement and insertion start go to the snippet manager and the cursor is
not set; on the snippet path with snippets disabled only the notice runs and
the cursor is again not set (left unrepositioned); only when the replacement
contains neither character is the cursor moved to the insertion start plus
the replacement's length. -/
theorem selectSuggestion_snippet_dispatch_iff (value : Suggestion)
    (ctx : TriggerContext) (disableSnippets : Bool) (line : List Char) :
    ((containsChar (getSuggestionReplacement value) '#' ||
        containsChar (getSuggestionReplacement value) '~') = true →
      (disableSnippets = false →
        (selectSuggestion value ctx disableSnippets line).snippetCall =
          some (getSuggestionReplacement value, selectionStart value ctx) ∧
        (selectSuggestion value ctx disableSnippets line).cursorSet = none) ∧
      (disableSnippets = true →
        (selectSuggestion value ctx disableSnippets line).noticeShown = true ∧
        (selectSuggestion value ctx disableSnippets line).snippetCall = none ∧
        (selectSuggestion value ctx disableSnippets line).cursorSet = none)) ∧
    ((containsChar (getSuggestionReplacement value) '#' ||
        containsChar (getSuggestionReplacement value) '~') = false →
      (selectSuggestion value ctx disableSnippets line).snippetCall = none ∧
      (selectSuggestion value ctx disableSnippets line).noticeShown = false ∧
      (selectSuggestion value ctx disableSnippets line).cursorSet =
        some ⟨(selectionStart value ctx).line,
          (selectionStart value ctx).ch +
            (getSuggestionReplacement value).length⟩) := by
  constructor
  · intro hm
    constructor
    · intro hds
      subst hds
      simp [selectSuggestion, hm]
    · intro hds
      subst hds
      simp [selectSuggestion, hm]
  · intro hm
    simp [selectSuggestion, hm]

/-- Witness for C10: a marker-bearing replacement with snippets disabled
takes the notice path and leaves the cursor unrepositioned. -/
theorem selectSuggestion_snippet_dispatch_iff_witness :
    (selectSuggestion (Suggestion.plain "a~b") ctxSample true lineW).noticeShown
        = true ∧
    (selectSuggestion (Suggestion.plain "a~b") ctxSample true lineW).snippetCall
        = none ∧
    (selectSuggestion (Suggestion.plain "a~b") ctxSample true lineW).cursorSet
        = none :=
  ((selectSuggestion_snippet_dispatch_iff (Suggestion.plain "a~b") ctxSample
      true lineW).1 (by decide)).2 rfl

/-- C8: after any acceptance, `justClosed` is set, so the very next
trigger-detection event yields no trigger and clears the latch, and the
trigger-detection event after that one behaves normally: it yields the
ordinary trigger info spanning backwards from the cursor by the query length. -/
theorem acceptance_suppresses_next_trigger_once (value : Suggestion)
    (ctx : TriggerContext) (disableSnippets : Bool) (line : List Char)
    (sep : String) (c1 c2 : EditorPosition) (m1 m2 : MatchResult) :
    (onTrigger ⟨(selectSuggestion value ctx disableSnippets line).justClosed,
        sep⟩ c1 m1).2 = none ∧
    (onTrigger ⟨(selectSuggestion value ctx disableSnippets line).justClosed,
        sep⟩ c1 m1).1.justClosed = false ∧
    (onTrigger (onTrigger
        ⟨(selectSuggestion value ctx disableSnippets line).justClosed, sep⟩
        c1 m1).1 c2 m2).2 =
      some ⟨⟨c2.line, c2.ch - m2.query.length⟩, c2, m2.query⟩ := by
  rw [selectSuggestion_justClosed]
  simp [onTrigger]

/-- C9: rebinding the accept key. Starting with no active custom registration
and then calling `setInsertionKey` for `k1` and afterwards for `k2`: the final
scope holds the original bindings plus exactly one custom binding (the one for
`k2`), and no binding with the handle that was issued for `k1` remains — the
old key's registration is disabled before the new one is made, so at most one
custom registration is active. -/
theorem setInsertionKey_single_binding (sc : Scope) (k1 k2 : String)
    (hfresh : ∀ p ∈ sc.regs, p.1 < sc.nextHandle) :
    (setInsertionKey (setInsertionKey sc none k1).1
        (setInsertionKey sc none k1).2 k2).1.regs =
      sc.regs ++ [(sc.nextHandle + 1, k2)] ∧
    ∀ p ∈ (setInsertionKey (setInsertionKey sc none k1).1
        (setInsertionKey sc none k1).2 k2).1.regs,
      p.1 ≠ sc.nextHandle := by
  have hfilter : (sc.regs ++ [(sc.nextHandle, k1)]).filter
      (fun p => decide (p.1 ≠ sc.nextHandle)) = sc.regs := by
    rw [List.filter_append]
    have hself : sc.regs.filter (fun p => decide (p.1 ≠ sc.nextHandle)) =
        sc.regs := by
      apply List.filter_eq_self.mpr
      intro p hp
      simp only [decide_eq_true_eq]
      exact Nat.ne_of_lt (hfresh p hp)
    rw [hself]
    have hone : List.filter (fun p => decide (p.1 ≠ sc.nextHandle))
        [(sc.nextHandle, k1)] = [] := by simp
    rw [hone, List.append_nil]
  constructor
  · simp only [setInsertionKey, disableInsertionKey, Scope.register,
      Scope.unregister]
    rw [hfilter]
  · intro p hp
    simp only [setInsertionKey, disableInsertionKey, Scope.register,
      Scope.unregister] at hp
    rw [hfilter] at hp
    rcases List.mem_append.mp hp with h | h
    · exact Nat.ne_of_lt (hfresh p h)
    · simp at h
      subst h
      exact Nat.succ_ne_self sc.nextHandle

/-- Witness for C9 at a concrete scope holding one pre-existing host binding. -/
theorem setInsertionKey_single_binding_witness :
    (setInsertionKey (setInsertionKey ⟨[(0, "Enter")], 1⟩ none "Tab").1
        (setInsertionKey ⟨[(0, "Enter")], 1⟩ none "Tab").2 "Space").1.regs =
      [(0, "Enter")] ++ [(1 + 1, "Space")] ∧
    ∀ p ∈ (setInsertionKey (setInsertionKey ⟨[(0, "Enter")], 1⟩ none "Tab").1
        (setInsertionKey ⟨[(0, "Enter")], 1⟩ none "Tab").2 "Space").1.regs,
      p.1 ≠ 1 :=
  setInsertionKey_single_binding ⟨[(0, "Enter")], 1⟩ "Tab" "Space"
    (by intro p hp; fin_cases hp; decide)

/- Concrete providers for the aggregation witnesses. -/

/-- A blocking provider returning one rich candidate with an override start. -/
def provBlockerW : Provider :=
  ⟨fun _ => [Suggestion.rich "ov" "ov" (some ⟨0, 1⟩)], true⟩

/-- A lower-priority provider that must never run after a blocker fires. -/
def provLaterW : Provider :=
  ⟨fun _ => [Suggestion.plain "later"], false⟩

/-- A non-blocking provider with two candidates. -/
def provTwoW : Provider :=
  ⟨fun _ => [Suggestion.plain "a1", Suggestion.plain "a2"], false⟩

/-- A non-blocking provider with one candidate. -/
def provOneW : Provider :=
  ⟨fun _ => [Suggestion.plain "b1"], false⟩

/-- Witness for C3: the blocking provider at position 0 returns a candidate,
so at most one provider is invoked. -/
theorem getSuggestions_blocking_stops_witness :
    (getSuggestions [provBlockerW, provLaterW] ctxSample).invoked ≤ 1 :=
  getSuggestions_blocking_stops [provBlockerW, provLaterW] ctxSample
    ⟨0, by decide⟩ rfl (by decide)

/-- Witness for C4: two non-blocking providers; the result is the
concatenation of their candidate lists in order. -/
theorem getSuggestions_no_block_concat_witness :
    (getSuggestions [provTwoW, provOneW] ctxSample).suggestions =
      ([provTwoW, provOneW].map (fun p => p.getSuggestions ctxSample)).flatten :=
  getSuggestions_no_block_concat [provTwoW, provOneW] ctxSample
    (by intro p hp; fin_cases hp <;> rfl)

/-- Witness for C6: the blocking short-circuit fires and the context start
becomes the last override start among the collected candidates. -/
theorem getSuggestions_overrideStart_policy_witness :
    (getSuggestions [provBlockerW] ctxSample).ctxStart =
      (lastOverride
        (getSuggestions [provBlockerW] ctxSample).suggestions).getD
        ctxSample.start :=
  (getSuggestions_overrideStart_policy [provBlockerW] ctxSample).1 rfl
